import Mathlib

/-!
Verification of the admission-control layer (rate limiters) of the
threadspace-ai-os repository.

The implementation modules (`guardian.utils.rate_limiter`,
`guardian.utils.event_safe_limiter`, `guardian.utils.system_rate_limiter`,
`guardian.config.Config`) are not present in the source tree; only their
tests and callers are.  The definitions below are therefore modelled from
the specification (spec.md §3–§7), with time and rates embedded as
rationals (the spec's numerics are real-valued; floating point is out of
scope).  Each definition's doc comment records what it models.
-/

namespace Guardian

/-- Modelled from the spec: the process-wide Safe-Mode flag
(`SafeModeFlag` of §3; `Config.SAFE_MODE` / `Config.SAFE_MODE_RATE_LIMIT`
of §6), read — never owned — by every ledger at acquire time.
The concrete class `guardian.config.Config` is absent from src. -/
structure Config where
  SAFE_MODE : Bool
  SAFE_MODE_RATE_LIMIT : ℚ
deriving DecidableEq, Repr

/-- Modelled from the spec (§4.3 Safe-Mode Override): while enabled, the
effective rate is `min(configured_rate, override_rate)`; while disabled it
is the configured rate. -/
def effectiveRate (cfg : Config) (rate : ℚ) : ℚ :=
  if cfg.SAFE_MODE then min rate cfg.SAFE_MODE_RATE_LIMIT else rate

/-- Modelled from the spec (§3 data model): the Pacing Ledger holding
`next_eligible_time`, a monotonic timestamp mutated under the domain's
exclusion discipline.  The implementing classes are absent from src. -/
structure PacingLedger where
  next_eligible_time : ℚ
deriving DecidableEq, Repr

/-- Modelled from the spec: a freshly constructed limiter's ledger.  The
spec fixes no initial timestamp; the tests (e.g.
src/tests/test_simple_limiter.py) show the first `acquire()` of a fresh
limiter is admitted immediately, so the initial `next_eligible_time` is
taken as the epoch of the monotonic clock, before every `now`. -/
def freshLedger : PacingLedger := ⟨0⟩

/-- Outcome of one completed (non-cancelled) `acquire()` call: the wait
imposed, the instant the caller is admitted (`now + wait`), and the
updated ledger. -/
structure AcquireOutcome where
  wait : ℚ
  admitTime : ℚ
  ledger : PacingLedger
deriving DecidableEq, Repr

/-- Modelled from the spec (§4.1 Pacing Ledger, `acquire()`): under the
domain's exclusion discipline, read monotonic `now`;
`interval = 1/effective_rate`; `wait = max(0, next_eligible_time - now)`;
suspend for `wait`; on uncancelled completion advance
`next_eligible_time = max(next_eligible_time, now) + interval`.  The
caller is admitted at `now + wait`.  The implementing `acquire` methods
are absent from src. -/
def acquire (cfg : Config) (rate : ℚ) (st : PacingLedger) (now : ℚ) :
    AcquireOutcome :=
  let interval := 1 / effectiveRate cfg rate
  let wait := max 0 (st.next_eligible_time - now)
  { wait := wait
    admitTime := now + wait
    ledger := ⟨max st.next_eligible_time now + interval⟩ }

/-- Modelled from the spec (§4.1 Cancellation): if the suspension inside
`acquire()` is cancelled before completion, `next_eligible_time` is not
advanced; otherwise the call completes as `acquire`. -/
def acquireWithCancel (cfg : Config) (rate : ℚ) (st : PacingLedger)
    (now : ℚ) (cancelled : Bool) : PacingLedger :=
  if cancelled then st else (acquire cfg rate st now).ledger

lemma acquire_admitTime_eq_max (cfg : Config) (rate : ℚ) (st : PacingLedger)
    (now : ℚ) :
    (acquire cfg rate st now).admitTime = max st.next_eligible_time now := by
  simp only [acquire]
  rcases le_total st.next_eligible_time now with h | h
  · rw [max_eq_right h, max_eq_left (by linarith), add_zero]
  · rw [max_eq_left h, max_eq_right (by linarith)]
    ring

lemma acquire_ledger_eq_admit_add (cfg : Config) (rate : ℚ)
    (st : PacingLedger) (now : ℚ) :
    (acquire cfg rate st now).ledger.next_eligible_time
      = (acquire cfg rate st now).admitTime + 1 / effectiveRate cfg rate := by
  rw [acquire_admitTime_eq_max]
  simp [acquire]

lemma acquire_admitTime_ge (cfg : Config) (rate : ℚ) (st : PacingLedger)
    (now : ℚ) :
    st.next_eligible_time ≤ (acquire cfg rate st now).admitTime := by
  rw [acquire_admitTime_eq_max]; exact le_max_left _ _

/-- Modelled from the spec (§4.1, §5): a serialized trace of `acquire()`
calls on one Pacing Ledger.  Each event is the `now` read by that call and
whether its suspension was cancelled; the domain's exclusion discipline
serializes concurrent callers, so any interleaving is some such list.  The
result is the list of admission instants of the completed calls. -/
def runAcquires (cfg : Config) (rate : ℚ) :
    PacingLedger → List (ℚ × Bool) → List ℚ
  | _, [] => []
  | st, e :: es =>
    if e.2 then runAcquires cfg rate st es
    else
      (acquire cfg rate st e.1).admitTime ::
        runAcquires cfg rate (acquire cfg rate st e.1).ledger es

lemma runAcquires_head_ge (cfg : Config) (rate : ℚ) :
    ∀ (es : List (ℚ × Bool)) (st : PacingLedger) (x : ℚ),
      (runAcquires cfg rate st es).head? = some x →
        st.next_eligible_time ≤ x := by
  intro es
  induction es with
  | nil => intro st x h; simp [runAcquires] at h
  | cons e es ih =>
    intro st x h
    by_cases hc : e.2
    · rw [runAcquires, if_pos hc] at h
      exact ih st x h
    · rw [runAcquires, if_neg hc] at h
      simp only [List.head?_cons, Option.some.injEq] at h
      rw [← h]
      exact acquire_admitTime_ge cfg rate st e.1

lemma runAcquires_chain (cfg : Config) (rate : ℚ) :
    ∀ (es : List (ℚ × Bool)) (st : PacingLedger),
      List.Chain' (fun a b => a + 1 / effectiveRate cfg rate ≤ b)
        (runAcquires cfg rate st es) := by
  intro es
  induction es with
  | nil => intro st; simp [runAcquires]
  | cons e es ih =>
    intro st
    by_cases hc : e.2
    · rw [runAcquires, if_pos hc]; exact ih st
    · rw [runAcquires, if_neg hc]
      rw [List.chain'_cons']
      refine ⟨?_, ih _⟩
      intro y hy
      have h1 := runAcquires_head_ge cfg rate es
        (acquire cfg rate st e.1).ledger y hy
      have h2 := acquire_ledger_eq_admit_add cfg rate st e.1
      linarith

/-- Modelled from the spec (§4.4 Global/Shared-Domain Coordination): one
event of the combined stream over the single process-wide shared ledger.
`rate` is the configured rate of the limiter instance through which this
`acquire()` was issued; `cfg` is the Safe-Mode flag observed by the call. -/
structure GlobalEvent where
  now : ℚ
  rate : ℚ
  cfg : Config
  cancelled : Bool

/-- Modelled from the spec (§4.4): the combined admission stream produced
by any number of independently constructed Global-domain limiter
instances.  All events read and advance the one shared
`next_eligible_time` under one lock; the interval charged by each
completed call is `1/effective_rate` of the instance issuing it.  The
result pairs each admission instant with that interval. -/
def runGlobal : PacingLedger → List GlobalEvent → List (ℚ × ℚ)
  | _, [] => []
  | st, e :: es =>
    if e.cancelled then runGlobal st es
    else
      ((acquire e.cfg e.rate st e.now).admitTime,
        1 / effectiveRate e.cfg e.rate) ::
        runGlobal (acquire e.cfg e.rate st e.now).ledger es

lemma runGlobal_head_ge :
    ∀ (es : List GlobalEvent) (st : PacingLedger) (p : ℚ × ℚ),
      (runGlobal st es).head? = some p → st.next_eligible_time ≤ p.1 := by
  intro es
  induction es with
  | nil => intro st p h; simp [runGlobal] at h
  | cons e es ih =>
    intro st p h
    by_cases hc : e.cancelled
    · rw [runGlobal, if_pos hc] at h
      exact ih st p h
    · rw [runGlobal, if_neg hc] at h
      simp only [List.head?_cons, Option.some.injEq] at h
      rw [← h]
      exact acquire_admitTime_ge e.cfg e.rate st e.now

lemma runGlobal_chain :
    ∀ (es : List GlobalEvent) (st : PacingLedger),
      List.Chain' (fun p q => p.1 + p.2 ≤ q.1) (runGlobal st es) := by
  intro es
  induction es with
  | nil => intro st; simp [runGlobal]
  | cons e es ih =>
    intro st
    by_cases hc : e.cancelled
    · rw [runGlobal, if_pos hc]; exact ih st
    · rw [runGlobal, if_neg hc]
      rw [List.chain'_cons']
      refine ⟨?_, ih _⟩
      intro q hq
      have h1 := runGlobal_head_ge es (acquire e.cfg e.rate st e.now).ledger q hq
      have h2 := acquire_ledger_eq_admit_add e.cfg e.rate st e.now
      dsimp only
      linarith

/-- Modelled from the spec (§7 error taxonomy): `IsolationViolation` (an
event-loop-bound limiter used from an unexpected context; in the tests it
surfaces as a `RuntimeError` whose message mentions the event loop) and
`ConfigurationError` (non-positive rate at construction). -/
inductive LimiterError where
  | IsolationViolation (msg : String)
  | ConfigurationError
deriving DecidableEq, Repr

/-- Modelled from the spec and tests: the message of the isolation error.
The tests (src/tests/test_event_limiter.py, test_loop_safety.py,
test_limiter_isolation.py) assert that the raised message contains
"same event loop" / "event loop". -/
def isolationMessage : String :=
  "RateLimiter must be used in the same event loop it was created in"

/-- Modelled from the spec (§6 construction): admission domains. -/
inductive Domain where
  | simple
  | eventLoopBound
  | global
deriving DecidableEq, Repr

/-- A constructed limiter: the validated configured rate and its domain. -/
structure Limiter where
  rate : ℚ
  domain : Domain
deriving DecidableEq, Repr

/-- Modelled from the spec (§6, §7): `new_limiter(rate: float>0, domain)`;
a non-positive rate raises `ConfigurationError` at construction time, not
at first use — construction returns the error, so no limiter value exists
on which an `acquire()` could later be attempted. -/
def new_limiter (rate : ℚ) (domain : Domain) : Except LimiterError Limiter :=
  if rate ≤ 0 then .error .ConfigurationError
  else .ok { rate := rate, domain := domain }

/-- Modelled from the spec (§3 ContextToken, §4.2 Affinity Guard) and the
tests: an event-loop-bound limiter (`guardian.utils.event_safe_limiter.
RateLimiter`, absent from src).  `boundLoop` is the identity of the owning
event loop.  The tests (test_loop_safety.py, test_limiter_isolation.py)
show the very first `acquire()` from a foreign loop already fails, so the
context token is captured at construction, the variant the spec's
"captured on first use (or construction)" allows. -/
structure EventLimiter where
  rate : ℚ
  boundLoop : ℕ
  ledger : PacingLedger
deriving DecidableEq, Repr

/-- Modelled from the spec: constructing an event-loop-bound limiter
while the caller's current event loop is `currentLoop` records that loop
as the limiter's context token. -/
def mkEventLimiter (rate : ℚ) (currentLoop : ℕ) : EventLimiter :=
  { rate := rate, boundLoop := currentLoop, ledger := freshLedger }

/-- Modelled from the spec (§4.2 Context Affinity Guard): `acquire()` on
an event-loop-bound limiter first compares the caller's context `ctx`
with the recorded one; on mismatch it fails with `IsolationViolation`
before touching timing state or suspending — the returned limiter is the
untouched input.  On match it runs the Pacing Ledger's `acquire` and
returns the admission instant with the advanced ledger. -/
def acquireEvent (cfg : Config) (lim : EventLimiter) (ctx : ℕ) (now : ℚ) :
    Except LimiterError ℚ × EventLimiter :=
  if ctx = lim.boundLoop then
    (.ok (acquire cfg lim.rate lim.ledger now).admitTime,
      { lim with ledger := (acquire cfg lim.rate lim.ledger now).ledger })
  else
    (.error (.IsolationViolation isolationMessage), lim)

/-- Modelled from the spec (§4.5 Decorator/Wrapper Adapter): one
invocation of a wrapped callable.  It performs exactly one `acquire()`,
then invokes the wrapped operation once with the original argument and
forwards its result or exception (`Except`) unchanged.  The third
component records the argument list of the invocations of the wrapped
operation made by this call. -/
def rate_limited {α β ε : Type} (cfg : Config) (rate : ℚ)
    (op : α → Except ε β) (st : PacingLedger) (now : ℚ) (a : α) :
    Except ε β × PacingLedger × List α :=
  ((op a), (acquire cfg rate st now).ledger, [a])

lemma runAcquires_pairwise (cfg : Config) (rate : ℚ) (st : PacingLedger)
    (evs : List (ℚ × Bool)) (hr : 0 < effectiveRate cfg rate) :
    List.Pairwise (fun a b => a + 1 / effectiveRate cfg rate ≤ b)
      (runAcquires cfg rate st evs) := by
  have hi : (0 : ℚ) ≤ 1 / effectiveRate cfg rate := by positivity
  have htrans : IsTrans ℚ (fun a b => a + 1 / effectiveRate cfg rate ≤ b) :=
    ⟨fun x y z hxy hyz => by
      have hxy' : x + 1 / effectiveRate cfg rate ≤ y := hxy
      have hyz' : y + 1 / effectiveRate cfg rate ≤ z := hyz
      show x + 1 / effectiveRate cfg rate ≤ z
      linarith⟩
  exact (@List.chain'_iff_pairwise _ _ htrans _).mp
    (runAcquires_chain cfg rate evs st)

/-- C1: minimum-interval invariant.  For every configuration with positive
effective rate (in particular every rate `r > 0` outside Safe Mode) and
every serialized sequence of `acquire()` calls on one ledger — covering
one sequential caller as well as any interleaving of concurrent callers,
with arbitrary `now` reads and arbitrary cancelled calls in between — any
two admissions among the completed calls are at least
`1/effective_rate` apart. -/
theorem C1_min_interval_invariant (cfg : Config) (rate : ℚ)
    (st : PacingLedger) (evs : List (ℚ × Bool))
    (hr : 0 < effectiveRate cfg rate) :
    List.Pairwise (fun a b => a + 1 / effectiveRate cfg rate ≤ b)
      (runAcquires cfg rate st evs) :=
  runAcquires_pairwise cfg rate st evs hr

/-- Witness for C1 at a concrete trace: rate 5, Safe Mode off, three
completed acquisitions and one cancelled one. -/
theorem C1_min_interval_invariant_witness :
    0 < effectiveRate ⟨false, 2⟩ 5
  ∧ List.Pairwise (fun a b => a + 1 / effectiveRate ⟨false, 2⟩ 5 ≤ b)
      (runAcquires ⟨false, 2⟩ 5 freshLedger
        [(0, false), (0, false), (1, true), (1, false)]) :=
  ⟨by decide,
   C1_min_interval_invariant ⟨false, 2⟩ 5 freshLedger
     [(0, false), (0, false), (1, true), (1, false)] (by decide)⟩

/-- C2: the `acquire()` algorithm.  Each call reads `now`, computes
`wait = max(0, next_eligible_time - now)`, is admitted exactly `wait`
after `now`, and on uncancelled completion sets
`next_eligible_time = max(next_eligible_time, now) + 1/effective_rate`;
if the call arrives at or after the eligible instant it proceeds with no
wait, and after the call any acquire arriving one interval or more past
the admission waits 0 — no backlog beyond one interval accumulates. -/
theorem C2_acquire_algorithm (cfg : Config) (rate : ℚ) (st : PacingLedger)
    (now : ℚ) :
    (acquire cfg rate st now).wait = max 0 (st.next_eligible_time - now)
  ∧ (acquire cfg rate st now).admitTime = now + (acquire cfg rate st now).wait
  ∧ (acquire cfg rate st now).ledger.next_eligible_time
      = max st.next_eligible_time now + 1 / effectiveRate cfg rate
  ∧ (st.next_eligible_time ≤ now → (acquire cfg rate st now).wait = 0)
  ∧ (∀ t, (acquire cfg rate st now).admitTime + 1 / effectiveRate cfg rate ≤ t →
      (acquire cfg rate (acquire cfg rate st now).ledger t).wait = 0) := by
  refine ⟨rfl, rfl, rfl, ?_, ?_⟩
  · intro h
    show max 0 (st.next_eligible_time - now) = 0
    rw [max_eq_left (by linarith)]
  · intro t ht
    show max 0 ((acquire cfg rate st now).ledger.next_eligible_time - t) = 0
    rw [acquire_ledger_eq_admit_add, max_eq_left (by linarith)]

/-- Witness for C2's conditional parts: a limiter with
`next_eligible_time = 0` acquired at `now = 1` waits 0, and after that
call an acquire arriving at `t = 2 ≥ admission + 1/5` also waits 0. -/
theorem C2_acquire_algorithm_witness :
    (acquire ⟨false, 2⟩ 5 ⟨0⟩ 1).wait = 0
  ∧ (acquire ⟨false, 2⟩ 5 (acquire ⟨false, 2⟩ 5 ⟨0⟩ 1).ledger 2).wait = 0 :=
  ⟨(C2_acquire_algorithm ⟨false, 2⟩ 5 ⟨0⟩ 1).2.2.2.1 (by norm_num),
   (C2_acquire_algorithm ⟨false, 2⟩ 5 ⟨0⟩ 1).2.2.2.2 2
     (by norm_num [acquire, effectiveRate, max_def])⟩

/-- C3: context-affinity isolation.  Driving an event-loop-bound limiter
from a context other than the recorded one fails with
`IsolationViolation` immediately, returns the limiter with its
`next_eligible_time` untouched, and a subsequent acquisition from the
recorded context behaves exactly as if the foreign call never happened. -/
theorem C3_isolation_violation (cfg cfg' : Config) (lim : EventLimiter)
    (ctx : ℕ) (now now' : ℚ) (h : ctx ≠ lim.boundLoop) :
    (acquireEvent cfg lim ctx now).1
      = .error (.IsolationViolation isolationMessage)
  ∧ (acquireEvent cfg lim ctx now).2 = lim
  ∧ acquireEvent cfg' (acquireEvent cfg lim ctx now).2 lim.boundLoop now'
      = acquireEvent cfg' lim lim.boundLoop now' := by
  have he : acquireEvent cfg lim ctx now
      = (.error (.IsolationViolation isolationMessage), lim) := by
    rw [acquireEvent, if_neg h]
  rw [he]
  exact ⟨rfl, rfl, rfl⟩

/-- Witness for C3: a limiter bound to loop 0, driven from loop 1. -/
theorem C3_isolation_violation_witness :
    (acquireEvent ⟨false, 2⟩ (mkEventLimiter 10 0) 1 0).1
      = .error (.IsolationViolation isolationMessage)
  ∧ (acquireEvent ⟨false, 2⟩ (mkEventLimiter 10 0) 1 0).2 = mkEventLimiter 10 0
  ∧ acquireEvent ⟨true, 3⟩ (acquireEvent ⟨false, 2⟩ (mkEventLimiter 10 0) 1 0).2
        (mkEventLimiter 10 0).boundLoop 1
      = acquireEvent ⟨true, 3⟩ (mkEventLimiter 10 0)
          (mkEventLimiter 10 0).boundLoop 1 :=
  C3_isolation_violation ⟨false, 2⟩ ⟨true, 3⟩ (mkEventLimiter 10 0) 1 0 1
    (by decide)

/-- C4: Safe-Mode override.  While the flag is enabled the effective rate
is `min(configured_rate, override_rate)`; while disabled it is the
configured rate.  The wait of an acquire depends only on the ledger and
`now`, never on the flag — so a flag change never retroactively alters an
in-flight wait — while the ledger advance of the next acquire uses the
flag in force at that call, and the admission following a completed
acquire under `cfg₁` is at least `1/effectiveRate cfg₁` later. -/
theorem C4_safe_mode_override (cfg₁ cfg₂ : Config) (rate : ℚ)
    (st : PacingLedger) (now now' : ℚ) :
    (cfg₁.SAFE_MODE = true →
      effectiveRate cfg₁ rate = min rate cfg₁.SAFE_MODE_RATE_LIMIT)
  ∧ (cfg₁.SAFE_MODE = false → effectiveRate cfg₁ rate = rate)
  ∧ (acquire cfg₂ rate st now).wait = (acquire cfg₁ rate st now).wait
  ∧ (acquire cfg₂ rate (acquire cfg₁ rate st now).ledger now').ledger.next_eligible_time
      = (acquire cfg₂ rate (acquire cfg₁ rate st now).ledger now').admitTime
        + 1 / effectiveRate cfg₂ rate
  ∧ (acquire cfg₁ rate st now).admitTime + 1 / effectiveRate cfg₁ rate
      ≤ (acquire cfg₂ rate (acquire cfg₁ rate st now).ledger now').admitTime := by
  refine ⟨?_, ?_, rfl, acquire_ledger_eq_admit_add cfg₂ rate _ now', ?_⟩
  · intro h; simp [effectiveRate, h]
  · intro h; simp [effectiveRate, h]
  · have h1 := acquire_admitTime_ge cfg₂ rate (acquire cfg₁ rate st now).ledger now'
    have h2 := acquire_ledger_eq_admit_add cfg₁ rate st now
    linarith

/-- Witness for C4's conditional parts: with the flag enabled the
effective rate of a rate-10 limiter is `min 10 2`; disabled it is 10. -/
theorem C4_safe_mode_override_witness :
    effectiveRate ⟨true, 2⟩ 10 = min 10 (⟨true, 2⟩ : Config).SAFE_MODE_RATE_LIMIT
  ∧ effectiveRate ⟨false, 2⟩ 10 = 10 :=
  ⟨(C4_safe_mode_override ⟨true, 2⟩ ⟨true, 2⟩ 10 freshLedger 0 0).1 rfl,
   (C4_safe_mode_override ⟨false, 2⟩ ⟨false, 2⟩ 10 freshLedger 0 0).2.1 rfl⟩

/-- C5: cancellation atomicity.  A cancelled suspension leaves the ledger
exactly as if that `acquire()` never ran, and a retried `acquire()`
issued any time strictly after the last admission resumes with a wait
strictly smaller than the full configured interval `1/rate` (stated
outside Safe Mode, where the configured and effective intervals
coincide). -/
theorem C5_cancellation_atomicity (cfg : Config) (rate : ℚ)
    (st : PacingLedger) (now nowc now' : ℚ) (hr : 0 < rate)
    (hsm : cfg.SAFE_MODE = false)
    (hlate : (acquire cfg rate st now).admitTime < now') :
    acquireWithCancel cfg rate (acquire cfg rate st now).ledger nowc true
      = (acquire cfg rate st now).ledger
  ∧ (acquire cfg rate
      (acquireWithCancel cfg rate (acquire cfg rate st now).ledger nowc true)
      now').wait < 1 / rate := by
  refine ⟨rfl, ?_⟩
  have heff : effectiveRate cfg rate = rate := by simp [effectiveRate, hsm]
  have hled := acquire_ledger_eq_admit_add cfg rate st now
  rw [heff] at hled
  have hpos : (0 : ℚ) < 1 / rate := by positivity
  show max 0 ((acquire cfg rate st now).ledger.next_eligible_time - now') < 1 / rate
  exact max_lt hpos (by linarith)

/-- Witness for C5: rate 2, a completed acquire admitted at 0, a
cancelled attempt, then a retry at `now' = 1/4`, which waits `1/4 < 1/2`. -/
theorem C5_cancellation_atomicity_witness :
    acquireWithCancel ⟨false, 2⟩ 2 (acquire ⟨false, 2⟩ 2 freshLedger 0).ledger 0 true
      = (acquire ⟨false, 2⟩ 2 freshLedger 0).ledger
  ∧ (acquire ⟨false, 2⟩ 2
      (acquireWithCancel ⟨false, 2⟩ 2
        (acquire ⟨false, 2⟩ 2 freshLedger 0).ledger 0 true)
      (1 / 4)).wait < 1 / 2 :=
  C5_cancellation_atomicity ⟨false, 2⟩ 2 freshLedger 0 0 (1 / 4)
    (by norm_num) rfl
    (by norm_num [acquire, effectiveRate, freshLedger, max_def])

/-- C6: decorator transparency.  One invocation of a wrapped callable
performs exactly one `acquire()`, invokes the wrapped operation exactly
once with its original argument, and returns its result or exception
unchanged with no retry; the rate slot (the ledger advance) is consumed
whether the operation succeeds or raises. -/
theorem C6_decorator_transparency {α β ε : Type} (cfg : Config) (rate : ℚ)
    (op : α → Except ε β) (st : PacingLedger) (now : ℚ) (a : α) :
    (rate_limited cfg rate op st now a).1 = op a
  ∧ (rate_limited cfg rate op st now a).2.1 = (acquire cfg rate st now).ledger
  ∧ (rate_limited cfg rate op st now a).2.2 = [a]
  ∧ (∀ e : ε, op a = .error e →
      (rate_limited cfg rate op st now a).1 = .error e
      ∧ (rate_limited cfg rate op st now a).2.1
          = (acquire cfg rate st now).ledger) :=
  ⟨rfl, rfl, rfl, fun _ h => ⟨h, rfl⟩⟩

/-- Witness for C6: a wrapped operation that always raises; the wrapper
re-raises it unchanged and still records exactly one invocation. -/
theorem C6_decorator_transparency_witness :
    (rate_limited (⟨false, 2⟩ : Config) 5
        (fun _ : ℕ => (Except.error "boom" : Except String ℕ))
        freshLedger 0 7).1 = Except.error "boom"
  ∧ (rate_limited (⟨false, 2⟩ : Config) 5
        (fun _ : ℕ => (Except.error "boom" : Except String ℕ))
        freshLedger 0 7).2.2 = [7] :=
  ⟨((C6_decorator_transparency ⟨false, 2⟩ 5
      (fun _ : ℕ => (Except.error "boom" : Except String ℕ))
      freshLedger 0 7).2.2.2 "boom" rfl).1,
   (C6_decorator_transparency ⟨false, 2⟩ 5
      (fun _ : ℕ => (Except.error "boom" : Except String ℕ))
      freshLedger 0 7).2.2.1⟩

/-- C7: Global-domain coordination.  All `acquire()` calls issued through
any number of independently constructed Global-domain instances read and
advance the one shared `next_eligible_time` (the single `PacingLedger`
threaded through `runGlobal`, with each event carrying the rate of the
instance that issued it); in the combined admission stream across all
instances, each admission is at least one effective interval — that of
the instance that most recently acquired — before the next. -/
theorem C7_global_coordination (st : PacingLedger) (evs : List GlobalEvent) :
    List.Chain' (fun p q => p.1 + p.2 ≤ q.1) (runGlobal st evs) :=
  runGlobal_chain evs st

/-- C8 counterexample: two independently constructed simple limiters
(each with its own fresh ledger, per §4.2/§4.4 — sharing is only in the
Global domain) both acquired at `now = 0` admit at 0 and 0; the combined
stream has a consecutive gap of 0, below the single-instance interval
`1/10`.  This refutes the claim that independently constructed
non-Global instances behave as if they shared one pacing ledger. -/
theorem C8_counterexample :
    ¬ List.Chain' (fun a b => a + 1 / effectiveRate ⟨false, 2⟩ 10 ≤ b)
      (runAcquires ⟨false, 2⟩ 10 freshLedger [(0, false)]
        ++ runAcquires ⟨false, 2⟩ 10 freshLedger [(0, false)]) := by
  have h1 : runAcquires (⟨false, 2⟩ : Config) 10 freshLedger [(0, false)]
      = [0] := by
    norm_num [runAcquires, acquire, freshLedger, max_def]
  rw [h1]
  norm_num [List.chain'_cons, effectiveRate]

/-- C8 amended: independently constructed simple (or event-loop-bound)
limiter instances have per-instance ledgers, so only each instance's own
admission stream keeps consecutive admissions at least `1/effective_rate`
apart; the combined stream across instances carries no minimum-gap
guarantee (cross-instance sharing exists only in the Global domain). -/
theorem C8_per_instance_min_interval (cfg : Config) (rate : ℚ)
    (evsA evsB : List (ℚ × Bool)) (hr : 0 < effectiveRate cfg rate) :
    List.Pairwise (fun a b => a + 1 / effectiveRate cfg rate ≤ b)
      (runAcquires cfg rate freshLedger evsA)
  ∧ List.Pairwise (fun a b => a + 1 / effectiveRate cfg rate ≤ b)
      (runAcquires cfg rate freshLedger evsB) :=
  ⟨runAcquires_pairwise cfg rate freshLedger evsA hr,
   runAcquires_pairwise cfg rate freshLedger evsB hr⟩

/-- Witness for C8's amended statement at concrete traces on two fresh
instances. -/
theorem C8_per_instance_min_interval_witness :
    List.Pairwise (fun a b => a + 1 / effectiveRate ⟨false, 2⟩ 10 ≤ b)
      (runAcquires ⟨false, 2⟩ 10 freshLedger [(0, false), (0, false)])
  ∧ List.Pairwise (fun a b => a + 1 / effectiveRate ⟨false, 2⟩ 10 ≤ b)
      (runAcquires ⟨false, 2⟩ 10 freshLedger [(0, false)]) :=
  C8_per_instance_min_interval ⟨false, 2⟩ 10
    [(0, false), (0, false)] [(0, false)] (by decide)

/-- C9: construction-time validation.  `new_limiter` returns
`ConfigurationError` for every non-positive rate — the failure happens at
construction, so no limiter value exists on which a first `acquire()`
could be attempted — and succeeds for every positive rate. -/
theorem C9_construction_validation :
    (∀ (r : ℚ) (d : Domain),
      r ≤ 0 → new_limiter r d = .error .ConfigurationError)
  ∧ (∀ (r : ℚ) (d : Domain),
      0 < r → ∃ l : Limiter, new_limiter r d = .ok l) := by
  constructor
  · intro r d h
    rw [new_limiter, if_pos h]
  · intro r d h
    exact ⟨⟨r, d⟩, by rw [new_limiter, if_neg (not_le.mpr h)]⟩

/-- Witness for C9: rate `-1` is rejected at construction and rate `5`
is accepted. -/
theorem C9_construction_validation_witness :
    new_limiter (-1) Domain.simple = .error .ConfigurationError
  ∧ ∃ l : Limiter, new_limiter 5 Domain.simple = .ok l :=
  ⟨C9_construction_validation.1 (-1) Domain.simple (by norm_num),
   C9_construction_validation.2 5 Domain.simple (by norm_num)⟩

/-- C10: context capture at construction.  An event-loop-bound limiter
constructed while the current event loop is `loopA` already holds `loopA`
as its context token, so the very first `acquire()` ever executed on it
from a different loop `loopB` fails with the isolation error — no earlier
`acquire()` was needed to record a context — and the error's message
mentions the event loop. -/
theorem C10_context_captured_at_construction (cfg : Config) (rate : ℚ)
    (loopA loopB : ℕ) (now : ℚ) (h : loopB ≠ loopA) :
    (acquireEvent cfg (mkEventLimiter rate loopA) loopB now).1
      = .error (.IsolationViolation isolationMessage)
  ∧ "event loop".data <:+: isolationMessage.data := by
  constructor
  · have hb : loopB ≠ (mkEventLimiter rate loopA).boundLoop := h
    rw [acquireEvent, if_neg hb]
  · decide

/-- Witness for C10: a limiter constructed on loop 0, first driven from
loop 1. -/
theorem C10_context_captured_at_construction_witness :
    (acquireEvent ⟨true, 2⟩ (mkEventLimiter 10 0) 1 0).1
      = .error (.IsolationViolation isolationMessage)
  ∧ "event loop".data <:+: isolationMessage.data :=
  C10_context_captured_at_construction ⟨true, 2⟩ 10 0 1 0 (by decide)

end Guardian
